import Mathlib

/-!
Verification of the `ChatInputHandler` class (raw-mode terminal input with
line editing and history navigation).

Strings are modelled as `List Char` (JavaScript `slice`/`length`/concatenation
become `List.take`/`List.drop`/`List.length`/`++`), the mutable handler
fields become a record `HandlerState`, and each method becomes a state
transformer.  Terminal rendering (`renderInputLine`), raw-mode toggling and
`process.stdout` writes have no effect on the modelled state and are omitted.
-/

namespace ChatInput

/-- Characters removed by JavaScript `String.prototype.trim` (the ASCII
fragment: space, tab, line feed, carriage return, vertical tab, form feed). -/
def isJsSpace (c : Char) : Bool :=
  c = ' ' || c = '\t' || c = '\n' || c = '\r' || c = '\x0b' || c = '\x0c'

/-- JavaScript `s.trim()` on a string modelled as a list of characters. -/
def trimList (l : List Char) : List Char :=
  ((l.dropWhile isJsSpace).reverse.dropWhile isJsSpace).reverse

/-- The mutable fields of `ChatInputHandler`:
`history` (most-recent-first entries), `historyIndex` (-1 when not browsing),
`inputBuffer`, `cursorPosition`, `savedCurrentInput` (the draft saved when
entering history browsing).  `isRawMode` is omitted: it only mirrors the
terminal mode and never influences the fields above. -/
structure HandlerState where
  history : List (List Char)
  historyIndex : Int
  inputBuffer : List Char
  cursorPosition : Nat
  savedCurrentInput : List Char
deriving Repr, DecidableEq

/-- The constructor `new ChatInputHandler(history)`: copies the given history
array, all other fields start at their initializers. -/
def mkHandler (history : List (List Char)) : HandlerState :=
  { history := history, historyIndex := -1, inputBuffer := [],
    cursorPosition := 0, savedCurrentInput := [] }

/-- `resetHistoryNavigation()`: if `historyIndex !== -1`, set it to -1 and
clear `savedCurrentInput`. -/
def resetHistoryNavigation (s : HandlerState) : HandlerState :=
  if s.historyIndex ≠ -1 then
    { s with historyIndex := -1, savedCurrentInput := [] }
  else s

/-- `insertCharacter(char)`: reset history navigation, splice the character
in at the cursor, advance the cursor. -/
def insertCharacter (c : Char) (s : HandlerState) : HandlerState :=
  let s1 := resetHistoryNavigation s
  { s1 with
    inputBuffer :=
      s1.inputBuffer.take s1.cursorPosition ++ c :: s1.inputBuffer.drop s1.cursorPosition,
    cursorPosition := s1.cursorPosition + 1 }

/-- `handleBackspace()`: reset history navigation, then if the cursor is
positive remove the character before it and move the cursor back. -/
def handleBackspace (s : HandlerState) : HandlerState :=
  let s1 := resetHistoryNavigation s
  if 0 < s1.cursorPosition then
    { s1 with
      inputBuffer :=
        s1.inputBuffer.take (s1.cursorPosition - 1) ++
          s1.inputBuffer.drop s1.cursorPosition,
      cursorPosition := s1.cursorPosition - 1 }
  else s1

/-- `handleEnter()`: writes a newline (no modelled effect) and resets history
navigation; the submission itself happens in the data handler. -/
def handleEnter (s : HandlerState) : HandlerState :=
  resetHistoryNavigation s

/-- `restoreCurrentInput()`: leave browsing, restore the saved draft into the
buffer with the cursor at its end, clear the saved draft. -/
def restoreCurrentInput (s : HandlerState) : HandlerState :=
  { s with
    historyIndex := -1,
    inputBuffer := s.savedCurrentInput,
    cursorPosition := s.savedCurrentInput.length,
    savedCurrentInput := [] }

/-- `clearInput()`: leave browsing with an empty buffer, cursor 0 and an
empty saved draft. -/
def clearInput (s : HandlerState) : HandlerState :=
  { s with
    historyIndex := -1,
    inputBuffer := [],
    cursorPosition := 0,
    savedCurrentInput := [] }

/-- Direction argument of `navigateHistory`. -/
inductive HistDir
  | up
  | down
deriving Repr, DecidableEq

/-- `this.history[this.historyIndex]` (the guards in `navigateHistory` keep
the index inside `[0, history.length)`). -/
def histEntry (s : HandlerState) : List Char :=
  (s.history.get? s.historyIndex.toNat).getD []

/-- `navigateHistory(direction)`. -/
def navigateHistory (d : HistDir) (s : HandlerState) : HandlerState :=
  if s.history.length = 0 then s
  else
    match d with
    | HistDir.up =>
      if s.historyIndex = -1 then
        let s1 := { s with savedCurrentInput := s.inputBuffer, historyIndex := 0 }
        { s1 with inputBuffer := histEntry s1, cursorPosition := (histEntry s1).length }
      else if s.historyIndex < (s.history.length : Int) - 1 then
        let s1 := { s with historyIndex := s.historyIndex + 1 }
        { s1 with inputBuffer := histEntry s1, cursorPosition := (histEntry s1).length }
      else s
    | HistDir.down =>
      if s.historyIndex = -1 then s
      else if 0 < s.historyIndex then
        let s1 := { s with historyIndex := s.historyIndex - 1 }
        { s1 with inputBuffer := histEntry s1, cursorPosition := (histEntry s1).length }
      else if trimList s.savedCurrentInput = [] then clearInput s
      else restoreCurrentInput s

/-- Key names returned by `parseAnsiSequence`. -/
inductive SpecialKey
  | up
  | down
  | right
  | left
  | home
  | endKey
  | delete
deriving Repr, DecidableEq

/-- The escape byte 0x1B. -/
def escChar : Char := Char.ofNat 27

/-- Ctrl+C (0x03). -/
def ctrlC : Char := Char.ofNat 3

/-- DEL (0x7F), sent by the backspace key. -/
def delChar : Char := Char.ofNat 127

/-- BS (0x08). -/
def bsChar : Char := Char.ofNat 8

/-- Carriage return (0x0D). -/
def crChar : Char := Char.ofNat 13

/-- Line feed (0x0A). -/
def lfChar : Char := Char.ofNat 10

/-- `parseAnsiSequence(data)`: recognizes the arrow, home, end and delete
sequences; anything else decodes to `none`. -/
def parseAnsiSequence (input : List Char) : Option SpecialKey :=
  if input = [escChar, '[', 'A'] then some SpecialKey.up
  else if input = [escChar, '[', 'B'] then some SpecialKey.down
  else if input = [escChar, '[', 'C'] then some SpecialKey.right
  else if input = [escChar, '[', 'D'] then some SpecialKey.left
  else if input = [escChar, '[', 'H'] ∨ input = [escChar, '[', '1', '~'] then
    some SpecialKey.home
  else if input = [escChar, '[', 'F'] ∨ input = [escChar, '[', '4', '~'] then
    some SpecialKey.endKey
  else if input = [escChar, '[', '3', '~'] then some SpecialKey.delete
  else none

/-- `handleSpecialKey(key)`. -/
def handleSpecialKey (k : SpecialKey) (s : HandlerState) : HandlerState :=
  match k with
  | SpecialKey.up => navigateHistory HistDir.up s
  | SpecialKey.down => navigateHistory HistDir.down s
  | SpecialKey.left =>
    if 0 < s.cursorPosition then { s with cursorPosition := s.cursorPosition - 1 }
    else s
  | SpecialKey.right =>
    if s.cursorPosition < s.inputBuffer.length then
      { s with cursorPosition := s.cursorPosition + 1 }
    else s
  | SpecialKey.home => { s with cursorPosition := 0 }
  | SpecialKey.endKey => { s with cursorPosition := s.inputBuffer.length }
  | SpecialKey.delete =>
    if s.cursorPosition < s.inputBuffer.length then
      { s with
        inputBuffer :=
          s.inputBuffer.take s.cursorPosition ++
            s.inputBuffer.drop (s.cursorPosition + 1) }
    else s

/-- Result of a keypress: either the next state, or the Ctrl+C process exit. -/
inductive KeyResult
  | next (s : HandlerState)
  | exitProc
deriving Repr, DecidableEq

/-- The checks of `handleKeyPress` that follow the escape-sequence dispatch
(control characters, Enter, printable characters); an unrecognized
escape-prefixed chunk falls through to these. -/
def handleKeyPressRest (input : List Char) (s : HandlerState) : KeyResult :=
  if input = [ctrlC] then KeyResult.exitProc
  else if input = [delChar] ∨ input = [bsChar] then
    KeyResult.next (handleBackspace s)
  else if input = [crChar] ∨ input = [lfChar] then
    KeyResult.next (handleEnter s)
  else if input.length = 1 ∧ 32 ≤ (input.headD ' ').toNat ∧ (input.headD ' ').toNat ≤ 126 then
    KeyResult.next (insertCharacter (input.headD ' ') s)
  else KeyResult.next s

/-- `handleKeyPress(data)`: dispatch recognized escape sequences to
`handleSpecialKey`, let everything else (including unrecognized escape
chunks) fall through to the remaining checks. -/
def handleKeyPress (input : List Char) (s : HandlerState) : KeyResult :=
  if input.head? = some escChar then
    match parseAnsiSequence input with
    | some key => KeyResult.next (handleSpecialKey key s)
    | none => handleKeyPressRest input s
  else handleKeyPressRest input s

/-- The history update performed by the data handler of `promptForInput` when Enter
is detected: trim the buffer, and if the result is non-empty and not already
contained anywhere in `history`, unshift it and truncate to 100 entries.
Returns the new state together with the resolved result string. -/
def enterHistoryUpdate (s : HandlerState) : HandlerState × List Char :=
  let result := trimList s.inputBuffer
  if result ≠ [] ∧ ¬ result ∈ s.history then
    let h := result :: s.history
    ({ s with history := if 100 < h.length then h.take 100 else h }, result)
  else (s, result)

/-- A full Enter submission: the keypress path (`handleEnter`) followed by the
history update of the data handler and resolution. -/
def enterStep (s : HandlerState) : HandlerState × List Char :=
  enterHistoryUpdate (handleEnter s)

/-- One invocation of the data handler of `promptForInput` on an input chunk:
run `handleKeyPress`, then if the chunk is exactly `"\r"` or `"\n"` perform
the history update and resolve the promise (the `Option` is the resolved
value, `none` when the promise stays pending). -/
def dataHandler (input : List Char) (s : HandlerState) : KeyResult × Option (List Char) :=
  match handleKeyPress input s with
  | KeyResult.exitProc => (KeyResult.exitProc, none)
  | KeyResult.next s1 =>
    if input = [crChar] ∨ input = [lfChar] then
      let p := enterHistoryUpdate s1
      (KeyResult.next p.1, some p.2)
    else (KeyResult.next s1, none)

/-- The state reset at the start of `promptForInput`: clear the buffer, reset
the cursor and the history navigation. -/
def promptReset (s : HandlerState) : HandlerState :=
  resetHistoryNavigation { s with inputBuffer := [], cursorPosition := 0 }

/-- `updateHistory(newHistory)`: replace `history` with a copy of the given
list and reset history navigation. -/
def updateHistory (newHistory : List (List Char)) (s : HandlerState) : HandlerState :=
  resetHistoryNavigation { s with history := newHistory }

/-- The cursor bound maintained by every operation. -/
def cursorInBounds (s : HandlerState) : Prop :=
  0 ≤ s.cursorPosition ∧ s.cursorPosition ≤ s.inputBuffer.length

/-! ### Helper lemmas -/

@[simp]
theorem reset_historyIndex (s : HandlerState) :
    (resetHistoryNavigation s).historyIndex = -1 := by
  unfold resetHistoryNavigation
  split
  · rfl
  · next h =>
    simp only [ne_eq, not_not] at h
    exact h

@[simp]
theorem reset_inputBuffer (s : HandlerState) :
    (resetHistoryNavigation s).inputBuffer = s.inputBuffer := by
  unfold resetHistoryNavigation
  split <;> rfl

@[simp]
theorem reset_cursorPosition (s : HandlerState) :
    (resetHistoryNavigation s).cursorPosition = s.cursorPosition := by
  unfold resetHistoryNavigation
  split <;> rfl

@[simp]
theorem reset_history (s : HandlerState) :
    (resetHistoryNavigation s).history = s.history := by
  unfold resetHistoryNavigation
  split <;> rfl

theorem reset_saved_of_browsing (s : HandlerState) (h : s.historyIndex ≠ -1) :
    (resetHistoryNavigation s).savedCurrentInput = [] := by
  unfold resetHistoryNavigation
  rw [if_pos h]

@[simp]
theorem insert_history (c : Char) (s : HandlerState) :
    (insertCharacter c s).history = s.history := by
  simp [insertCharacter]

@[simp]
theorem insert_historyIndex (c : Char) (s : HandlerState) :
    (insertCharacter c s).historyIndex = -1 := by
  simp [insertCharacter]

@[simp]
theorem insert_inputBuffer (c : Char) (s : HandlerState) :
    (insertCharacter c s).inputBuffer =
      s.inputBuffer.take s.cursorPosition ++ c :: s.inputBuffer.drop s.cursorPosition := by
  simp [insertCharacter]

@[simp]
theorem insert_cursorPosition (c : Char) (s : HandlerState) :
    (insertCharacter c s).cursorPosition = s.cursorPosition + 1 := by
  simp [insertCharacter]

theorem insert_saved_of_browsing (c : Char) (s : HandlerState) (h : s.historyIndex ≠ -1) :
    (insertCharacter c s).savedCurrentInput = [] := by
  simp [insertCharacter, reset_saved_of_browsing s h]

@[simp]
theorem backspace_history (s : HandlerState) :
    (handleBackspace s).history = s.history := by
  simp only [handleBackspace]
  split <;> simp

@[simp]
theorem backspace_historyIndex (s : HandlerState) :
    (handleBackspace s).historyIndex = -1 := by
  simp only [handleBackspace]
  split <;> simp

theorem backspace_inputBuffer (s : HandlerState) :
    (handleBackspace s).inputBuffer =
      if 0 < s.cursorPosition then
        s.inputBuffer.take (s.cursorPosition - 1) ++ s.inputBuffer.drop s.cursorPosition
      else s.inputBuffer := by
  simp only [handleBackspace, reset_cursorPosition, reset_inputBuffer]
  split <;> simp_all

theorem backspace_saved_of_browsing (s : HandlerState) (h : s.historyIndex ≠ -1) :
    (handleBackspace s).savedCurrentInput = [] := by
  simp only [handleBackspace]
  split <;> simp [reset_saved_of_browsing s h]

/-- A non-empty list is a cons. -/
theorem exists_cons_of_ne_nil {α : Type} {l : List α} (h : l ≠ []) :
    ∃ a t, l = a :: t := by
  cases l with
  | nil => exact absurd rfl h
  | cons a t => exact ⟨a, t, rfl⟩

/-- `navigateHistory` with direction `up` from a non-browsing state with non-empty history:
save the draft, move to index 0 and load the most recent entry. -/
theorem navigateHistory_up_fresh (s : HandlerState)
    (hh : s.history ≠ []) (hi : s.historyIndex = -1) :
    navigateHistory HistDir.up s =
      { s with
        savedCurrentInput := s.inputBuffer,
        historyIndex := 0,
        inputBuffer := s.history.headD [],
        cursorPosition := (s.history.headD []).length } := by
  obtain ⟨a, t, hs⟩ := exists_cons_of_ne_nil hh
  simp [navigateHistory, histEntry, hs, hi]

/-- `navigateHistory` with direction `down` at browsing index 0: leave browsing via
`clearInput` or `restoreCurrentInput` according to the trim of the saved draft. -/
theorem navigateHistory_down_zero (s : HandlerState)
    (hh : s.history ≠ []) (hi : s.historyIndex = 0) :
    navigateHistory HistDir.down s =
      if trimList s.savedCurrentInput = [] then clearInput s
      else restoreCurrentInput s := by
  obtain ⟨a, t, hs⟩ := exists_cons_of_ne_nil hh
  simp [navigateHistory, hs, hi]

/-- `handleKeyPressRest` ignores any chunk longer than one character: every
branch of the fall-through checks matches only single-character chunks. -/
theorem handleKeyPressRest_of_long (input : List Char) (s : HandlerState)
    (h : 1 < input.length) :
    handleKeyPressRest input s = KeyResult.next s := by
  have h1 : input ≠ [ctrlC] := by
    intro he
    rw [he] at h
    simp at h
  have h2 : ¬ (input = [delChar] ∨ input = [bsChar]) := by
    rintro (he | he) <;> (rw [he] at h; simp at h)
  have h3 : ¬ (input = [crChar] ∨ input = [lfChar]) := by
    rintro (he | he) <;> (rw [he] at h; simp at h)
  have h4 : ¬ (input.length = 1 ∧ 32 ≤ (input.headD ' ').toNat ∧
      (input.headD ' ').toNat ≤ 126) := by
    rintro ⟨hl, -, -⟩
    omega
  unfold handleKeyPressRest
  rw [if_neg h1, if_neg h2, if_neg h3, if_neg h4]

/-- `handleKeyPressRest` ignores any chunk whose first character is the escape
byte: 0x1B is none of the recognized control bytes and is not printable. -/
theorem handleKeyPressRest_of_esc (t : List Char) (s : HandlerState) :
    handleKeyPressRest (escChar :: t) s = KeyResult.next s := by
  have hne : ∀ c : Char, escChar ≠ c → escChar :: t ≠ [c] := by
    intro c hc he
    injection he with he1 _
    exact hc he1
  have h1 : escChar :: t ≠ [ctrlC] := hne _ (by decide)
  have h2 : ¬ (escChar :: t = [delChar] ∨ escChar :: t = [bsChar]) := by
    rintro (he | he)
    · exact hne _ (by decide) he
    · exact hne _ (by decide) he
  have h3 : ¬ (escChar :: t = [crChar] ∨ escChar :: t = [lfChar]) := by
    rintro (he | he)
    · exact hne _ (by decide) he
    · exact hne _ (by decide) he
  have h4 : ¬ ((escChar :: t).length = 1 ∧ 32 ≤ ((escChar :: t).headD ' ').toNat ∧
      ((escChar :: t).headD ' ').toNat ≤ 126) := by
    rintro ⟨-, hge, -⟩
    have hlt : ¬ 32 ≤ escChar.toNat := by decide
    exact hlt hge
  unfold handleKeyPressRest
  rw [if_neg h1, if_neg h2, if_neg h3, if_neg h4]

/-! ### Claim theorems -/

/-- C6: every chunk that starts with the escape byte but is not one of the
recognized navigation sequences decodes to `none` and leaves the whole state
(buffer, cursor, history fields) unchanged — no byte of it is inserted as
text; and decoding `ESC [ A` yields `up`. -/
theorem C6_unrecognized_escape_dropped (input : List Char) (s : HandlerState)
    (h1 : input.head? = some escChar) (h2 : parseAnsiSequence input = none) :
    parseAnsiSequence [escChar, '[', 'A'] = some SpecialKey.up ∧
    handleKeyPress input s = KeyResult.next s := by
  refine ⟨by decide, ?_⟩
  cases input with
  | nil => simp at h1
  | cons a t =>
    have ha : a = escChar := by simpa using h1
    subst ha
    unfold handleKeyPress
    rw [if_pos h1, h2]
    exact handleKeyPressRest_of_esc t s

/-- C6 witness: the unrecognized sequence `ESC [ Z` is dropped whole. -/
theorem C6_witness :
    parseAnsiSequence [escChar, '[', 'A'] = some SpecialKey.up ∧
    handleKeyPress [escChar, '[', 'Z'] (mkHandler [['h']]) =
      KeyResult.next (mkHandler [['h']]) :=
  C6_unrecognized_escape_dropped [escChar, '[', 'Z'] (mkHandler [['h']])
    (by decide) (by decide)

/-- C9: a chunk longer than one character that does not start with the escape
byte (for example pasted text or a CRLF pair delivered as one chunk) is
dropped whole: the data handler leaves the state unchanged and does not
resolve the pending promise. -/
theorem C9_multichar_chunk_dropped (input : List Char) (s : HandlerState)
    (h1 : 1 < input.length) (h2 : input.head? ≠ some escChar) :
    dataHandler input s = (KeyResult.next s, none) := by
  have hk : handleKeyPress input s = KeyResult.next s := by
    unfold handleKeyPress
    rw [if_neg h2]
    exact handleKeyPressRest_of_long input s h1
  have hcr : ¬ (input = [crChar] ∨ input = [lfChar]) := by
    rintro (he | he) <;> (rw [he] at h1; simp at h1)
  simp [dataHandler, hk, hcr]

/-- C9 witness: the two-byte CRLF chunk does not count as Enter. -/
theorem C9_witness :
    dataHandler [crChar, lfChar] (mkHandler [['h']]) =
      (KeyResult.next (mkHandler [['h']]), none) :=
  C9_multichar_chunk_dropped [crChar, lfChar] (mkHandler [['h']])
    (by decide) (by decide)

/-- C8: forward delete removes the character at the cursor when one exists
(no-op at end of buffer) and, unlike insert and backspace, never touches the
history-browsing fields `historyIndex` and `savedCurrentInput` (nor the
cursor). -/
theorem C8_delete_forward_frame (s : HandlerState) :
    (handleSpecialKey SpecialKey.delete s).historyIndex = s.historyIndex ∧
    (handleSpecialKey SpecialKey.delete s).savedCurrentInput = s.savedCurrentInput ∧
    (handleSpecialKey SpecialKey.delete s).cursorPosition = s.cursorPosition ∧
    (s.cursorPosition < s.inputBuffer.length →
      (handleSpecialKey SpecialKey.delete s).inputBuffer =
        s.inputBuffer.take s.cursorPosition ++
          s.inputBuffer.drop (s.cursorPosition + 1)) ∧
    (¬ s.cursorPosition < s.inputBuffer.length →
      handleSpecialKey SpecialKey.delete s = s) := by
  by_cases h : s.cursorPosition < s.inputBuffer.length <;>
    simp [handleSpecialKey, h]

/-- C8 witness: deleting forward in buffer `"ab"` at cursor 0, while browsing
at index 0 with a saved draft, removes the character `a` and keeps the browsing fields. -/
theorem C8_witness :
    (handleSpecialKey SpecialKey.delete
        { history := [['a', 'b']], historyIndex := 0, inputBuffer := ['a', 'b'],
          cursorPosition := 0, savedCurrentInput := ['d'] }).inputBuffer = ['b'] ∧
    (handleSpecialKey SpecialKey.delete
        { history := [['a', 'b']], historyIndex := 0, inputBuffer := ['a', 'b'],
          cursorPosition := 0, savedCurrentInput := ['d'] }).historyIndex = 0 ∧
    (handleSpecialKey SpecialKey.delete
        { history := [['a', 'b']], historyIndex := 0, inputBuffer := ['a', 'b'],
          cursorPosition := 0, savedCurrentInput := ['d'] }).savedCurrentInput = ['d'] := by
  have h := C8_delete_forward_frame
    { history := [['a', 'b']], historyIndex := 0, inputBuffer := ['a', 'b'],
      cursorPosition := 0, savedCurrentInput := ['d'] }
  exact ⟨(h.2.2.2.1 (by decide)).trans (by decide), h.1.trans rfl, h.2.1.trans rfl⟩

/-- C10: `updateHistory` replaces `history` with the given list and resets
the browsing state, while the buffer and cursor are untouched.  The
hypothesis is an invariant of every reachable state: outside browsing the
saved draft is empty. -/
theorem C10_updateHistory_frame (newHistory : List (List Char)) (s : HandlerState)
    (hinv : s.historyIndex = -1 → s.savedCurrentInput = []) :
    (updateHistory newHistory s).history = newHistory ∧
    (updateHistory newHistory s).historyIndex = -1 ∧
    (updateHistory newHistory s).savedCurrentInput = [] ∧
    (updateHistory newHistory s).inputBuffer = s.inputBuffer ∧
    (updateHistory newHistory s).cursorPosition = s.cursorPosition := by
  unfold updateHistory resetHistoryNavigation
  by_cases h : s.historyIndex = -1 <;> simp [h, hinv]

/-- C10 witness: replacing the history while the buffer displays an entry of
the replaced list keeps that text in the buffer as the draft. -/
theorem C10_witness :
    (updateHistory [['n']]
        { history := [['o']], historyIndex := 0, inputBuffer := ['o'],
          cursorPosition := 1, savedCurrentInput := ['d'] }).history = [['n']] ∧
    (updateHistory [['n']]
        { history := [['o']], historyIndex := 0, inputBuffer := ['o'],
          cursorPosition := 1, savedCurrentInput := ['d'] }).savedCurrentInput = [] ∧
    (updateHistory [['n']]
        { history := [['o']], historyIndex := 0, inputBuffer := ['o'],
          cursorPosition := 1, savedCurrentInput := ['d'] }).inputBuffer = ['o'] := by
  have h := C10_updateHistory_frame [['n']]
    { history := [['o']], historyIndex := 0, inputBuffer := ['o'],
      cursorPosition := 1, savedCurrentInput := ['d'] } (by decide)
  exact ⟨h.1, h.2.2.1, h.2.2.2.1⟩

/-- C2: from any browsing state (with the non-empty history every browsing
state has), an `insertCharacter` or `handleBackspace` immediately resets
`historyIndex` to -1 and clears the saved draft, the buffer afterwards is the
previously displayed text with the ordinary edit applied, and a subsequent
`navigateHistory` with direction `up` snapshots that post-edit buffer as the new draft. -/
theorem C2_edit_resets_browsing (s : HandlerState) (c : Char)
    (hb : s.historyIndex ≠ -1) (hh : s.history ≠ []) :
    (insertCharacter c s).historyIndex = -1 ∧
    (insertCharacter c s).savedCurrentInput = [] ∧
    (insertCharacter c s).inputBuffer =
      s.inputBuffer.take s.cursorPosition ++ c :: s.inputBuffer.drop s.cursorPosition ∧
    (insertCharacter c s).cursorPosition = s.cursorPosition + 1 ∧
    (handleBackspace s).historyIndex = -1 ∧
    (handleBackspace s).savedCurrentInput = [] ∧
    (handleBackspace s).inputBuffer =
      (if 0 < s.cursorPosition then
        s.inputBuffer.take (s.cursorPosition - 1) ++ s.inputBuffer.drop s.cursorPosition
       else s.inputBuffer) ∧
    (navigateHistory HistDir.up (insertCharacter c s)).savedCurrentInput =
      (insertCharacter c s).inputBuffer ∧
    (navigateHistory HistDir.up (handleBackspace s)).savedCurrentInput =
      (handleBackspace s).inputBuffer := by
  refine ⟨insert_historyIndex c s, insert_saved_of_browsing c s hb,
    insert_inputBuffer c s, insert_cursorPosition c s,
    backspace_historyIndex s, backspace_saved_of_browsing s hb,
    backspace_inputBuffer s, ?_, ?_⟩
  · rw [navigateHistory_up_fresh (insertCharacter c s)
      (by rw [insert_history]; exact hh) (insert_historyIndex c s)]
  · rw [navigateHistory_up_fresh (handleBackspace s)
      (by rw [backspace_history]; exact hh) (backspace_historyIndex s)]

/-- C2 witness: typing the character `a` while browsing entry `"x"` leaves the draft
`"xa"` and a following up-navigation snapshots it. -/
theorem C2_witness :
    (insertCharacter 'a'
        { history := [['x']], historyIndex := 0, inputBuffer := ['x'],
          cursorPosition := 1, savedCurrentInput := ['d'] }).historyIndex = -1 ∧
    (insertCharacter 'a'
        { history := [['x']], historyIndex := 0, inputBuffer := ['x'],
          cursorPosition := 1, savedCurrentInput := ['d'] }).inputBuffer = ['x', 'a'] ∧
    (navigateHistory HistDir.up (insertCharacter 'a'
        { history := [['x']], historyIndex := 0, inputBuffer := ['x'],
          cursorPosition := 1, savedCurrentInput := ['d'] })).savedCurrentInput =
      ['x', 'a'] := by
  have h := C2_edit_resets_browsing
    { history := [['x']], historyIndex := 0, inputBuffer := ['x'],
      cursorPosition := 1, savedCurrentInput := ['d'] } 'a' (by decide) (by decide)
  refine ⟨h.1, h.2.2.1.trans (by decide), ?_⟩
  exact h.2.2.2.2.2.2.2.1.trans (h.2.2.1.trans (by decide))

/-- C3: from a non-browsing state with non-empty history and a draft whose
trim is non-empty, `navigateHistory` with direction `up` snapshots the draft and loads the
most recent entry with the cursor at its end, and a following
`navigateHistory` with direction `down` restores exactly the original draft with the cursor
at its end, leaving browsing with an empty saved draft. -/
theorem C3_up_down_roundtrip (s : HandlerState)
    (hh : s.history ≠ []) (hi : s.historyIndex = -1)
    (hd : trimList s.inputBuffer ≠ []) :
    (navigateHistory HistDir.up s).savedCurrentInput = s.inputBuffer ∧
    (navigateHistory HistDir.up s).historyIndex = 0 ∧
    (navigateHistory HistDir.up s).inputBuffer = s.history.headD [] ∧
    (navigateHistory HistDir.up s).cursorPosition = (s.history.headD []).length ∧
    (navigateHistory HistDir.down (navigateHistory HistDir.up s)).inputBuffer =
      s.inputBuffer ∧
    (navigateHistory HistDir.down (navigateHistory HistDir.up s)).cursorPosition =
      s.inputBuffer.length ∧
    (navigateHistory HistDir.down (navigateHistory HistDir.up s)).historyIndex = -1 ∧
    (navigateHistory HistDir.down (navigateHistory HistDir.up s)).savedCurrentInput =
      [] := by
  have hup := navigateHistory_up_fresh s hh hi
  have hdown := navigateHistory_down_zero (navigateHistory HistDir.up s)
    (by rw [hup]; simpa using hh) (by rw [hup])
  rw [hup] at hdown
  rw [if_neg hd] at hdown
  rw [hup, hdown]
  simp [restoreCurrentInput]

/-- C3 witness: draft `"hello"` (cursor at 2) survives an up/down round trip
with the cursor restored to position 5. -/
theorem C3_witness :
    (navigateHistory HistDir.down (navigateHistory HistDir.up
        { history := [['h', 'i']], historyIndex := -1,
          inputBuffer := ['h', 'e', 'l', 'l', 'o'],
          cursorPosition := 2, savedCurrentInput := [] })).inputBuffer =
      ['h', 'e', 'l', 'l', 'o'] ∧
    (navigateHistory HistDir.down (navigateHistory HistDir.up
        { history := [['h', 'i']], historyIndex := -1,
          inputBuffer := ['h', 'e', 'l', 'l', 'o'],
          cursorPosition := 2, savedCurrentInput := [] })).cursorPosition = 5 := by
  have h := C3_up_down_roundtrip
    { history := [['h', 'i']], historyIndex := -1,
      inputBuffer := ['h', 'e', 'l', 'l', 'o'],
      cursorPosition := 2, savedCurrentInput := [] } (by decide) (by decide) (by decide)
  exact ⟨h.2.2.2.2.1, h.2.2.2.2.2.1.trans (by decide)⟩

/-- C4: from a non-browsing state with non-empty history and a draft that is
only whitespace, `navigateHistory` with direction `up` followed by `navigateHistory` with direction `down`
discards the whitespace draft: the buffer ends empty with cursor 0, browsing
off and the saved draft empty. -/
theorem C4_whitespace_draft_cleared (s : HandlerState)
    (hh : s.history ≠ []) (hi : s.historyIndex = -1)
    (hd : trimList s.inputBuffer = []) :
    (navigateHistory HistDir.down (navigateHistory HistDir.up s)).inputBuffer = [] ∧
    (navigateHistory HistDir.down (navigateHistory HistDir.up s)).cursorPosition = 0 ∧
    (navigateHistory HistDir.down (navigateHistory HistDir.up s)).historyIndex = -1 ∧
    (navigateHistory HistDir.down (navigateHistory HistDir.up s)).savedCurrentInput =
      [] := by
  have hup := navigateHistory_up_fresh s hh hi
  have hdown := navigateHistory_down_zero (navigateHistory HistDir.up s)
    (by rw [hup]; simpa using hh) (by rw [hup])
  rw [hup] at hdown
  rw [if_pos hd] at hdown
  rw [hup, hdown]
  simp [clearInput]

/-- C4 witness: the all-spaces draft `"   "` is not restored: after up then
down the buffer is empty with cursor 0. -/
theorem C4_witness :
    (navigateHistory HistDir.down (navigateHistory HistDir.up
        { history := [['h', 'i']], historyIndex := -1,
          inputBuffer := [' ', ' ', ' '],
          cursorPosition := 1, savedCurrentInput := [] })).inputBuffer = [] ∧
    (navigateHistory HistDir.down (navigateHistory HistDir.up
        { history := [['h', 'i']], historyIndex := -1,
          inputBuffer := [' ', ' ', ' '],
          cursorPosition := 1, savedCurrentInput := [] })).cursorPosition = 0 := by
  have h := C4_whitespace_draft_cleared
    { history := [['h', 'i']], historyIndex := -1,
      inputBuffer := [' ', ' ', ' '],
      cursorPosition := 1, savedCurrentInput := [] } (by decide) (by decide) (by decide)
  exact ⟨h.1, h.2.1⟩

/-- C1 counterexample: with history `["b", "a"]` and buffer `"a"`, the
trimmed line is non-empty and differs from the most recent entry `"b"`, yet
the Enter submission does not unshift it — the history is unchanged, because
the code skips any line contained anywhere in the history
(`!this.history.includes(result)`), not only a duplicate of `entries[0]`. -/
theorem C1_counterexample :
    trimList (['a'] : List Char) = ['a'] ∧
    (['a'] : List Char) ≠ [] ∧
    ([['b'], ['a']] : List (List Char)).headD [] ≠ ['a'] ∧
    (enterStep
        { history := [['b'], ['a']], historyIndex := -1, inputBuffer := ['a'],
          cursorPosition := 1, savedCurrentInput := [] }).1.history =
      [['b'], ['a']] := by
  decide

/-- C1 amended: on Enter with `trimmed = buffer.trim()`, the line is
unshifted to the front of `entries` (with the 100-entry truncation) exactly
when it is non-empty and not contained anywhere in `entries`; a duplicate of
any existing entry — not only of `entries[0]` — is skipped and leaves the
history unchanged. -/
theorem C1_amended_enter_dedup (s : HandlerState) :
    (trimList s.inputBuffer ≠ [] → trimList s.inputBuffer ∉ s.history →
      (enterStep s).1.history =
        (if 100 < (trimList s.inputBuffer :: s.history).length
         then (trimList s.inputBuffer :: s.history).take 100
         else trimList s.inputBuffer :: s.history)) ∧
    (trimList s.inputBuffer = [] ∨ trimList s.inputBuffer ∈ s.history →
      (enterStep s).1.history = s.history) := by
  constructor
  · intro h1 h2
    simp [enterStep, enterHistoryUpdate, handleEnter, h1, h2]
  · rintro (h | h) <;> simp [enterStep, enterHistoryUpdate, handleEnter, h]

/-- C1 amended witness: submitting `" hi "` with history `["b", "a"]`
unshifts the trimmed `"hi"`; resubmitting `"a"`, which is an older entry but
not `entries[0]`, leaves the history unchanged. -/
theorem C1_amended_witness :
    (enterStep
        { history := [['b'], ['a']], historyIndex := -1,
          inputBuffer := [' ', 'h', 'i', ' '],
          cursorPosition := 4, savedCurrentInput := [] }).1.history =
      [['h', 'i'], ['b'], ['a']] ∧
    (enterStep
        { history := [['b'], ['a']], historyIndex := -1, inputBuffer := ['a'],
          cursorPosition := 1, savedCurrentInput := [] }).1.history =
      [['b'], ['a']] := by
  constructor
  · exact ((C1_amended_enter_dedup
      { history := [['b'], ['a']], historyIndex := -1,
        inputBuffer := [' ', 'h', 'i', ' '],
        cursorPosition := 4, savedCurrentInput := [] }).1
      (by decide) (by decide)).trans (by decide)
  · exact (C1_amended_enter_dedup
      { history := [['b'], ['a']], historyIndex := -1, inputBuffer := ['a'],
        cursorPosition := 1, savedCurrentInput := [] }).2 (by decide)

/-- C5 counterexample: `updateHistory` copies the given list verbatim, so a
101-entry list leaves the handler with 101 entries — the 100 cap is not
enforced by every operation. -/
theorem C5_counterexample :
    100 <
      (updateHistory (List.replicate 101 ['x']) (mkHandler [])).history.length := by
  decide

/-- C5 amended: the Enter-submission path does keep the cap: from a history
of at most 100 entries it never leaves more than 100, and submitting a 101st
unique non-empty line to a full 100-entry history unshifts it and evicts the
oldest (last) entry, leaving exactly 100.  The constructor and
`updateHistory`, however, copy the provided list verbatim without truncating,
so they can exceed the cap. -/
theorem C5_amended_enter_cap (s : HandlerState) (hle : s.history.length ≤ 100) :
    (enterStep s).1.history.length ≤ 100 ∧
    (s.history.length = 100 → trimList s.inputBuffer ≠ [] →
      trimList s.inputBuffer ∉ s.history →
      (enterStep s).1.history = trimList s.inputBuffer :: s.history.take 99 ∧
      (enterStep s).1.history.length = 100) := by
  by_cases hc : trimList s.inputBuffer ≠ [] ∧ trimList s.inputBuffer ∉ s.history
  · have he : (enterStep s).1.history =
        (if 100 < (trimList s.inputBuffer :: s.history).length
         then (trimList s.inputBuffer :: s.history).take 100
         else trimList s.inputBuffer :: s.history) := by
      simp [enterStep, enterHistoryUpdate, handleEnter, hc.1, hc.2]
    constructor
    · rw [he]
      split
      · simp [List.length_take]
      · next hq => simp only [List.length_cons] at hq ⊢; omega
    · intro h100 _ _
      have hlen : (trimList s.inputBuffer :: s.history).length = 101 := by
        simp [h100]
      rw [he, if_pos (by rw [hlen]; omega)]
      constructor
      · rw [show (100 : Nat) = 99 + 1 from rfl, List.take_succ_cons]
      · simp only [List.length_take, List.length_cons]
        omega
  · have he : (enterStep s).1.history = s.history := by
      rcases Decidable.not_and_iff_or_not.mp hc with h | h
      · simp only [ne_eq, not_not] at h
        simp [enterStep, enterHistoryUpdate, handleEnter, h]
      · simp only [not_not] at h
        simp [enterStep, enterHistoryUpdate, handleEnter, h]
    refine ⟨he ▸ hle, ?_⟩
    intro _ ht hm
    exact absurd ⟨ht, hm⟩ hc

/-- A distinct 100-entry history used to witness the eviction behaviour. -/
def fullHistory : List (List Char) :=
  (List.range 100).map (fun n => [Char.ofNat (160 + n)])

/-- C5 amended witness: submitting the unique line `"a"` to the full
100-entry `fullHistory` leaves exactly 100 entries, with `"a"` in front and
the oldest entry evicted. -/
theorem C5_amended_witness :
    (enterStep
        { history := fullHistory, historyIndex := -1, inputBuffer := ['a'],
          cursorPosition := 1, savedCurrentInput := [] }).1.history =
      ['a'] :: fullHistory.take 99 ∧
    (enterStep
        { history := fullHistory, historyIndex := -1, inputBuffer := ['a'],
          cursorPosition := 1, savedCurrentInput := [] }).1.history.length = 100 := by
  have h := (C5_amended_enter_cap
    { history := fullHistory, historyIndex := -1, inputBuffer := ['a'],
      cursorPosition := 1, savedCurrentInput := [] } (by decide)).2
    (by decide) (by decide) (by decide)
  exact ⟨h.1.trans (by decide), h.2⟩

theorem cursorInBounds_insert (c : Char) (s : HandlerState)
    (h : cursorInBounds s) : cursorInBounds (insertCharacter c s) := by
  obtain ⟨-, h2⟩ := h
  refine ⟨Nat.zero_le _, ?_⟩
  simp only [insert_cursorPosition, insert_inputBuffer, List.length_append,
    List.length_take, List.length_cons, List.length_drop]
  omega

theorem cursorInBounds_backspace (s : HandlerState)
    (h : cursorInBounds s) : cursorInBounds (handleBackspace s) := by
  obtain ⟨-, h2⟩ := h
  refine ⟨Nat.zero_le _, ?_⟩
  simp only [handleBackspace, reset_cursorPosition, reset_inputBuffer]
  split
  · simp only [List.length_append, List.length_take, List.length_drop]
    omega
  · simpa using h2

theorem cursorInBounds_navigateHistory (d : HistDir) (s : HandlerState)
    (h : cursorInBounds s) : cursorInBounds (navigateHistory d s) := by
  obtain ⟨-, h2⟩ := h
  cases d
  case up =>
    simp only [navigateHistory]
    by_cases h0 : s.history.length = 0
    · simp only [if_pos h0]
      exact ⟨Nat.zero_le _, h2⟩
    · simp only [if_neg h0]
      by_cases h1 : s.historyIndex = -1
      · simp only [if_pos h1]
        refine ⟨Nat.zero_le _, ?_⟩
        simp
      · simp only [if_neg h1]
        by_cases hlt : s.historyIndex < (s.history.length : Int) - 1
        · simp only [if_pos hlt]
          refine ⟨Nat.zero_le _, ?_⟩
          simp
        · simp only [if_neg hlt]
          exact ⟨Nat.zero_le _, h2⟩
  case down =>
    simp only [navigateHistory]
    by_cases h0 : s.history.length = 0
    · simp only [if_pos h0]
      exact ⟨Nat.zero_le _, h2⟩
    · simp only [if_neg h0]
      by_cases h1 : s.historyIndex = -1
      · simp only [if_pos h1]
        exact ⟨Nat.zero_le _, h2⟩
      · simp only [if_neg h1]
        by_cases hpos : 0 < s.historyIndex
        · simp only [if_pos hpos]
          refine ⟨Nat.zero_le _, ?_⟩
          simp
        · simp only [if_neg hpos]
          by_cases hw : trimList s.savedCurrentInput = []
          · simp only [if_pos hw]
            exact ⟨Nat.zero_le _, Nat.zero_le _⟩
          · simp only [if_neg hw]
            refine ⟨Nat.zero_le _, ?_⟩
            simp [restoreCurrentInput]

theorem cursorInBounds_handleSpecialKey (k : SpecialKey) (s : HandlerState)
    (h : cursorInBounds s) : cursorInBounds (handleSpecialKey k s) := by
  obtain ⟨-, h2⟩ := h
  cases k
  case up => exact cursorInBounds_navigateHistory HistDir.up s ⟨Nat.zero_le _, h2⟩
  case down => exact cursorInBounds_navigateHistory HistDir.down s ⟨Nat.zero_le _, h2⟩
  case left =>
    simp only [handleSpecialKey]
    by_cases hc : 0 < s.cursorPosition
    · simp only [if_pos hc]
      exact ⟨Nat.zero_le _, by simp; omega⟩
    · simp only [if_neg hc]
      exact ⟨Nat.zero_le _, h2⟩
  case right =>
    simp only [handleSpecialKey]
    by_cases hc : s.cursorPosition < s.inputBuffer.length
    · simp only [if_pos hc]
      exact ⟨Nat.zero_le _, by simp; omega⟩
    · simp only [if_neg hc]
      exact ⟨Nat.zero_le _, h2⟩
  case home =>
    exact ⟨Nat.zero_le _, Nat.zero_le _⟩
  case endKey =>
    exact ⟨Nat.zero_le _, le_refl _⟩
  case delete =>
    simp only [handleSpecialKey]
    by_cases hc : s.cursorPosition < s.inputBuffer.length
    · simp only [if_pos hc]
      refine ⟨Nat.zero_le _, ?_⟩
      simp only [List.length_append, List.length_take, List.length_drop]
      omega
    · simp only [if_neg hc]
      exact ⟨Nat.zero_le _, h2⟩

theorem cursorInBounds_promptReset (s : HandlerState) :
    cursorInBounds (promptReset s) := by
  unfold promptReset resetHistoryNavigation
  split <;> exact ⟨Nat.zero_le _, Nat.zero_le _⟩

/-- C7: every operation — character insertion, backspace, every special key
(forward delete, the four cursor moves, and both history-navigation
directions) and the `promptForInput` session reset — keeps the cursor inside
`[0, length(buffer)]` whenever it starts inside it. -/
theorem C7_cursor_invariant (s : HandlerState) (c : Char) (k : SpecialKey)
    (d : HistDir) (h : cursorInBounds s) :
    cursorInBounds (insertCharacter c s) ∧
    cursorInBounds (handleBackspace s) ∧
    cursorInBounds (handleSpecialKey k s) ∧
    cursorInBounds (navigateHistory d s) ∧
    cursorInBounds (promptReset s) :=
  ⟨cursorInBounds_insert c s h, cursorInBounds_backspace s h,
    cursorInBounds_handleSpecialKey k s h, cursorInBounds_navigateHistory d s h,
    cursorInBounds_promptReset s⟩

/-- C7 witness: the bound holds after each operation on a concrete in-bounds
state. -/
theorem C7_witness :
    cursorInBounds (insertCharacter 'a'
      { history := [['x']], historyIndex := -1, inputBuffer := ['b'],
        cursorPosition := 1, savedCurrentInput := [] }) ∧
    cursorInBounds (handleSpecialKey SpecialKey.delete
      { history := [['x']], historyIndex := -1, inputBuffer := ['b'],
        cursorPosition := 1, savedCurrentInput := [] }) := by
  have h := C7_cursor_invariant
    { history := [['x']], historyIndex := -1, inputBuffer := ['b'],
      cursorPosition := 1, savedCurrentInput := [] } 'a' SpecialKey.delete HistDir.up
    ⟨Nat.zero_le _, by decide⟩
  exact ⟨h.1, h.2.2.1⟩

end ChatInput
